import Mathlib

/-!
Verification development for the ZNetTool repository.

Each Python module relevant to the frozen claims is shallowly embedded as
executable Lean definitions, and the claims are settled as theorems about
those definitions.

Modelling conventions:
* Byte strings are `List Nat` with each element a byte value.
* The reference platform is x86-64 Linux (little-endian, LP64), so the
  native `struct` format "L" is an 8-byte little-endian unsigned long and
  `socket.htonl` swaps the four bytes of a 32-bit value.
* Wall-clock instants (Python `datetime.now().isoformat()` strings together
  with their `.timestamp()` values) are modelled by their epoch value as an
  `Int`; the ISO rendering and re-parsing used by the code is the identity
  on that value.
* Python floats stored in the integration log are modelled as exact
  rationals; `None` becomes `Option.none`.
-/

/-! ## SNTP time module (`sntp_time_module.py`) -/

/-- Epoch offset between the NTP era (1900) and the Unix era (1970),
the constant `TIME1970` of `sntp_time_module.py`. -/
def TIME1970 : Nat := 2208988800

/-- Word `i` (0-based) of a reply parsed as 32-bit big-endian unsigned
words, as done by `struct.unpack('!12I', data)`. -/
def ntp_word (buf : List Nat) (i : Nat) : Nat :=
  buf.getD (4 * i) 0 * 2 ^ 24 + buf.getD (4 * i + 1) 0 * 2 ^ 16 +
    buf.getD (4 * i + 2) 0 * 2 ^ 8 + buf.getD (4 * i + 3) 0

/-- The Unix time computed by `sntp_client` from a reply buffer:
`struct.unpack('!12I', data)[10]` (which requires exactly 48 bytes)
minus `TIME1970`.  `none` models the `struct.error` path. -/
def sntp_unix_time (buf : List Nat) : Option Int :=
  if buf.length = 48 then
    some ((ntp_word buf 10 : Int) - (TIME1970 : Int))
  else
    none

/-! ## Echo test module (`echo_test_module.py`) -/

/-- Buffer size `DATA_PAYLOAD` used by the echo server's single `recv`. -/
def DATA_PAYLOAD : Nat := 2048

/-- Bytes the echo server writes back for a connection on which `recv`
returned `pending.take DATA_PAYLOAD`: it echoes them with `sendall` when
nonempty and sends nothing otherwise (the `if data:` guard). -/
def echo_server_reply (pending : List Nat) : List Nat :=
  let data := pending.take DATA_PAYLOAD
  if data.isEmpty then [] else data

/-- The echo client's receive loop: it concatenates the chunks returned by
successive `recv(16)` calls, stopping at the first empty chunk (peer
close). -/
def echo_client_reassemble (chunks : List (List Nat)) : List Nat :=
  (chunks.takeWhile (fun c => !c.isEmpty)).flatten

/-- The echo client's final check: success exactly when the reassembled
bytes equal the message it sent. -/
def echo_client_success (message : List Nat) (chunks : List (List Nat)) : Bool :=
  message == echo_client_reassemble chunks

/-! ## Raw-line chat module (`simple_chat_module.py`) -/

/-- One pass of `broadcast(message, sender_socket)` from
`simple_chat_module.py`, including Python's semantics of removing a list
element while a `for` loop iterates over the same list: removing the
current element shifts the remaining elements left, so the iterator's next
step lands past the element that followed the removed one.  Sockets are
modelled as naturals; `fails c = true` models `client.send` raising for
client `c`.  Returns the pair (clients that were sent the message, the
tracked client list after the pass).  Clients are pairwise distinct in the
server, so `clients.remove(client)` removes exactly the current element. -/
def raw_broadcast (sender : Nat) (fails : Nat → Bool) :
    List Nat → List Nat × List Nat
  | [] => ([], [])
  | x :: rest =>
    if x == sender then
      let r := raw_broadcast sender fails rest
      (r.1, x :: r.2)
    else if fails x then
      match rest with
      | [] => ([], [])
      | y :: rest' =>
        let r := raw_broadcast sender fails rest'
        (r.1, y :: r.2)
    else
      let r := raw_broadcast sender fails rest
      (x :: r.1, x :: r.2)

/-! ## Length-framed chat module (`error_settings_module.py`): broadcast -/

/-- The sockets `ChatServer.run` sends a received message to:
`for c in self.inputs: if c not in (self.server, s): send(c, msg)`. -/
def chat_broadcast_targets (inputs : List Nat) (server sender : Nat) : List Nat :=
  inputs.filter (fun c => decide (c ≠ server ∧ c ≠ sender))

/-! ## Length-framed chat module (`error_settings_module.py`): framing

The module frames messages as `struct.pack("L", socket.htonl(len(buffer)))`
followed by `buffer`, where `buffer = pickle.dumps(args)`.  On the
reference platform `struct.calcsize("L")` is 8 and the packing is
little-endian.  `pickle` is external library code; it is modelled below by
an executable injective serializer over the payload universe the module
exchanges (strings, integers and nested mappings), with the library's
guarantee that `loads` inverts `dumps`.  Every `send` call site of the
module passes exactly one payload argument, so the pickled `args` tuple
always has arity one. -/

mutual
/-- Payload values carried by the length-framed chat protocol. -/
inductive PValue where
  | pstr : String → PValue
  | pint : Int → PValue
  | pdict : PDict → PValue
deriving DecidableEq

/-- Association list of payload key/value pairs (a Python dict). -/
inductive PDict where
  | nil : PDict
  | cons : PValue → PValue → PDict → PDict
deriving DecidableEq
end

/-- Number of entries of a modelled dict. -/
def PDict.len : PDict → Nat
  | .nil => 0
  | .cons _ _ d => d.len + 1

/-- Code points of a string, used as the modelled serialized form of its
characters. -/
def strCodes (s : String) : List Nat :=
  s.toList.map Char.toNat

/-- String rebuilt from serialized code points. -/
def strOfCodes (codes : List Nat) : String :=
  String.mk (codes.map Char.ofNat)

mutual
/-- Modelled `pickle` serialization of one payload value (tag, then
length-delimited contents). -/
def encVal : PValue → List Nat
  | .pstr s => 0 :: s.length :: strCodes s
  | .pint i => 1 :: (if i < 0 then 1 else 0) :: [i.natAbs]
  | .pdict d => 2 :: d.len :: encPairs d

/-- Modelled serialization of the entries of a dict, in order. -/
def encPairs : PDict → List Nat
  | .nil => []
  | .cons k v d => encVal k ++ encVal v ++ encPairs d
end

mutual
/-- Modelled `pickle` decoding of one value from the front of a buffer,
returning the value and the unconsumed remainder; the fuel argument bounds
the recursion depth.  `none` models a `pickle.UnpicklingError`. -/
def decVal : Nat → List Nat → Option (PValue × List Nat)
  | 0, _ => none
  | _ + 1, 0 :: n :: rest =>
    if (rest.take n).length = n then
      some (.pstr (strOfCodes (rest.take n)), rest.drop n)
    else none
  | _ + 1, 1 :: 0 :: m :: rest => some (.pint (m : Int), rest)
  | _ + 1, 1 :: 1 :: m :: rest => some (.pint (-(m : Int)), rest)
  | fuel + 1, 2 :: n :: rest =>
    match decPairs fuel n rest with
    | some (d, r) => some (.pdict d, r)
    | none => none
  | _ + 1, _ => none

/-- Modelled decoding of `n` dict entries from the front of a buffer. -/
def decPairs : Nat → Nat → List Nat → Option (PDict × List Nat)
  | _, 0, input => some (.nil, input)
  | 0, _ + 1, _ => none
  | fuel + 1, n + 1, input =>
    match decVal fuel input with
    | none => none
    | some (k, r1) =>
      match decVal fuel r1 with
      | none => none
      | some (v, r2) =>
        match decPairs fuel n r2 with
        | none => none
        | some (d, r3) => some (.cons k v d, r3)
end

mutual
/-- Decoder fuel sufficient for a value (its nesting depth). -/
def needVal : PValue → Nat
  | .pstr _ => 1
  | .pint _ => 1
  | .pdict d => needPairs d + 1

/-- Decoder fuel sufficient for a dict's entries. -/
def needPairs : PDict → Nat
  | .nil => 0
  | .cons k v d => max (max (needVal k) (needVal v)) (needPairs d) + 1
end

/-- Modelled `pickle.dumps(args)` for the arity-one argument tuple every
`send` call site of the module builds. -/
def pickle_dumps (v : PValue) : List Nat :=
  3 :: 1 :: encVal v

/-- Modelled `pickle.loads`, returning the decoded argument tuple;
`none` models an unpickling exception. -/
def pickle_loads (bs : List Nat) : Option (List PValue) :=
  match bs with
  | 3 :: 1 :: rest =>
    match decVal (rest.length + 1) rest with
    | some (v, []) => some [v]
    | _ => none
  | _ => none

/-- Size of the native `struct` format "L" on the reference LP64
platform: `struct.calcsize("L") == 8`. -/
def struct_calcsize_L : Nat := 8

/-- `socket.htonl` on a little-endian host: the 32-bit byte swap. -/
def htonl (x : Nat) : Nat :=
  x % 2 ^ 32 % 256 * 2 ^ 24 + x % 2 ^ 32 / 2 ^ 8 % 256 * 2 ^ 16 +
    x % 2 ^ 32 / 2 ^ 16 % 256 * 2 ^ 8 + x % 2 ^ 32 / 2 ^ 24

/-- `struct.pack("L", v)`: eight little-endian bytes of a native unsigned
long. -/
def pack_L (v : Nat) : List Nat :=
  [v % 256, v / 2 ^ 8 % 256, v / 2 ^ 16 % 256, v / 2 ^ 24 % 256,
    v / 2 ^ 32 % 256, v / 2  ^ 40 % 256, v / 2 ^ 48 % 256, v / 2 ^ 56 % 256]

/-- `struct.unpack("L", bs)[0]`: requires exactly eight bytes
(`struct.error`, modelled as `none`, otherwise). -/
def unpack_L (bs : List Nat) : Option Nat :=
  match bs with
  | [b0, b1, b2, b3, b4, b5, b6, b7] =>
    some (b0 + b1 * 2 ^ 8 + b2 * 2 ^ 16 + b3 * 2 ^ 24 + b4 * 2 ^ 32 +
      b5 * 2 ^ 40 + b6 * 2 ^ 48 + b7 * 2 ^ 56)
  | _ => none

/-- Bytes written by `send(channel, v)`: the packed `htonl` of the pickled
buffer's length, then the buffer (two `channel.send` calls on one
stream). -/
def send_frame (v : PValue) : List Nat :=
  pack_L (htonl (pickle_dumps v).length) ++ pickle_dumps v

/-- Result of the `receive` primitive: the empty-string sentinel `''`, a
decoded payload, or an unhandled exception escaping `receive`
(`pickle.loads` failing on a truncated buffer, or indexing an empty
tuple). -/
inductive RecvOutcome where
  | sentinel
  | value : PValue → RecvOutcome
  | error
deriving DecidableEq

/-- The module's `receive(channel)` applied to the bytes queued on the
channel: read `struct.calcsize("L")` bytes, unpack and `ntohl` them
(`socket.ntohl` is the same byte swap as `htonl`), read at most that many
payload bytes, and unpickle; a malformed size prefix or an empty payload
read yields the `''` sentinel. -/
def receive (input : List Nat) : RecvOutcome :=
  match unpack_L (input.take struct_calcsize_L) with
  | none => .sentinel
  | some raw =>
    let size := htonl raw
    let buf := (input.drop struct_calcsize_L).take size
    if buf.isEmpty then .sentinel
    else
      match pickle_loads buf with
      | some (v :: _) => .value v
      | some [] => .error
      | none => .error

/-! ## Data integration module (`data_integration_module.py`)

The integrator keeps six in-memory record arrays and rewrites one JSON
document after mutations.  A state pairs the in-memory data with the data
most recently written to disk by `save_data` (whose success path is
modelled; a persistence fault is outside the claims under study). -/

/-- Entry of the `echo_tests` array. -/
structure EchoTestRecord where
  timestamp : Int
  port : Int
  status : String
  response_time : Option ℚ
  error_message : Option String
deriving DecidableEq

/-- Entry of the `sntp_checks` array. -/
structure SntpCheckRecord where
  timestamp : Int
  server : String
  server_time : String
  local_time : String
  time_difference : ℚ
deriving DecidableEq

/-- Entry of the `machine_info` array. -/
structure MachineInfoRecord where
  timestamp : Int
  hostname : String
  ip_address : String
  network_interfaces : List (String × String)
deriving DecidableEq

/-- Entry of the `socket_errors` array. -/
structure SocketErrorRecord where
  timestamp : Int
  error_type : String
  error_message : String
  module : String
  port : Option Int
deriving DecidableEq

/-- Entry of the `chat_sessions` array. -/
structure ChatSessionRecord where
  timestamp : Int
  session_type : String
  port : Int
  duration : Option ℚ
  message_count : Option Int
deriving DecidableEq

/-- Entry of the `integration_log` array. -/
structure LogEntryRecord where
  timestamp : Int
  module : String
  message : String
deriving DecidableEq

/-- The six record arrays of the integration data document. -/
structure IntegratorData where
  echo_tests : List EchoTestRecord
  sntp_checks : List SntpCheckRecord
  machine_info : List MachineInfoRecord
  socket_errors : List SocketErrorRecord
  chat_sessions : List ChatSessionRecord
  integration_log : List LogEntryRecord
deriving DecidableEq

/-- In-memory data together with the last data written to the JSON
document. -/
structure IntegratorState where
  mem : IntegratorData
  disk : IntegratorData
deriving DecidableEq

/-- The empty data `load_data` builds when no file exists. -/
def emptyIntegratorData : IntegratorData := ⟨[], [], [], [], [], []⟩

/-- `log_integration(module, message)`: append a timestamped entry to the
in-memory integration event log (no save of its own). -/
def log_integration (now : Int) (module message : String)
    (d : IntegratorData) : IntegratorData :=
  { d with integration_log := d.integration_log ++ [⟨now, module, message⟩] }

/-- `add_echo_test_result`: append the result record, log the integration
event, then `save_data` (copy memory to disk).  The Python f-string is
rendered with `toString`. -/
def add_echo_test_result (now port : Int) (status : String)
    (response_time : Option ℚ) (error_message : Option String)
    (s : IntegratorState) : IntegratorState :=
  let d1 := { s.mem with echo_tests :=
    s.mem.echo_tests ++ [⟨now, port, status, response_time, error_message⟩] }
  let d2 := log_integration now "echo_test"
    ("Echo test on port " ++ toString port ++ ": " ++ status) d1
  { mem := d2, disk := d2 }

/-- `add_sntp_check`: append, log, save.  The `:.2f` rendering of the time
difference is abstracted by `toString`. -/
def add_sntp_check (now : Int) (server_time local_time : String)
    (time_difference : ℚ) (server : String)
    (s : IntegratorState) : IntegratorState :=
  let d1 := { s.mem with sntp_checks :=
    s.mem.sntp_checks ++ [⟨now, server, server_time, local_time, time_difference⟩] }
  let d2 := log_integration now "sntp_check"
    ("SNTP check: " ++ toString time_difference ++ "s difference") d1
  { mem := d2, disk := d2 }

/-- `add_machine_info`: append, log, save. -/
def add_machine_info (now : Int) (hostname ip_address : String)
    (network_interfaces : List (String × String))
    (s : IntegratorState) : IntegratorState :=
  let d1 := { s.mem with machine_info :=
    s.mem.machine_info ++ [⟨now, hostname, ip_address, network_interfaces⟩] }
  let d2 := log_integration now "machine_info"
    ("Machine info collected for " ++ hostname) d1
  { mem := d2, disk := d2 }

/-- `add_socket_error`: append, log, save. -/
def add_socket_error (now : Int) (error_type error_message module : String)
    (port : Option Int) (s : IntegratorState) : IntegratorState :=
  let d1 := { s.mem with socket_errors :=
    s.mem.socket_errors ++ [⟨now, error_type, error_message, module, port⟩] }
  let d2 := log_integration now "socket_error"
    ("Socket error in " ++ module ++ ": " ++ error_type) d1
  { mem := d2, disk := d2 }

/-- `add_chat_session`: append, log, save. -/
def add_chat_session (now : Int) (session_type : String) (port : Int)
    (duration : Option ℚ) (message_count : Option Int)
    (s : IntegratorState) : IntegratorState :=
  let d1 := { s.mem with chat_sessions :=
    s.mem.chat_sessions ++ [⟨now, session_type, port, duration, message_count⟩] }
  let d2 := log_integration now "chat_session"
    ("Chat session: " ++ session_type ++ " on port " ++ toString port) d1
  { mem := d2, disk := d2 }

/-- The age filter of `clear_old_data`: each of the six arrays keeps
exactly the items whose timestamp is strictly greater than
`now - days*24*60*60`. -/
def filter_old (now days : Int) (d : IntegratorData) : IntegratorData :=
  { echo_tests := d.echo_tests.filter
      (fun x => decide (now - days * (24 * 60 * 60) < x.timestamp)),
    sntp_checks := d.sntp_checks.filter
      (fun x => decide (now - days * (24 * 60 * 60) < x.timestamp)),
    machine_info := d.machine_info.filter
      (fun x => decide (now - days * (24 * 60 * 60) < x.timestamp)),
    socket_errors := d.socket_errors.filter
      (fun x => decide (now - days * (24 * 60 * 60) < x.timestamp)),
    chat_sessions := d.chat_sessions.filter
      (fun x => decide (now - days * (24 * 60 * 60) < x.timestamp)),
    integration_log := d.integration_log.filter
      (fun x => decide (now - days * (24 * 60 * 60) < x.timestamp)) }

/-- The integration-log entry `clear_old_data` appends. -/
def cleanup_log_entry (now days : Int) : LogEntryRecord :=
  ⟨now, "data_cleanup", "Cleared data older than " ++ toString days ++ " days"⟩

/-- `clear_old_data(days)`: filter the six arrays against the cutoff,
`save_data`, and only then log the cleanup event (so that entry reaches
memory after the save). -/
def clear_old_data (now days : Int) (s : IntegratorState) : IntegratorState :=
  let d1 := filter_old now days s.mem
  let d2 := log_integration now "data_cleanup"
    ("Cleared data older than " ++ toString days ++ " days") d1
  { mem := d2, disk := d1 }

/-- Truthiness of a recorded response time in a boolean context
(`t.get('response_time')`): `None` and `0.0` are falsy. -/
def truthy_rt : Option ℚ → Bool
  | none => false
  | some q => decide (q ≠ 0)

/-- The response-time values the analysis aggregates: those of
`completed` tests whose recorded value is truthy. -/
def analysis_response_times (tests : List EchoTestRecord) : List ℚ :=
  (tests.filter (fun t => t.status == "completed")).filterMap
    (fun t => if truthy_rt t.response_time then t.response_time else none)

/-- Python's `sum(l)/len(l)` for a nonempty list. -/
def rts_avg : List ℚ → Option ℚ
  | [] => none
  | q :: qs => some ((q :: qs).sum / ((q :: qs).length : ℚ))

/-- Python's `min(l)` for a nonempty list. -/
def rts_min : List ℚ → Option ℚ
  | [] => none
  | q :: qs => some (qs.foldl min q)

/-- Python's `max(l)` for a nonempty list. -/
def rts_max : List ℚ → Option ℚ
  | [] => none
  | q :: qs => some (qs.foldl max q)

/-- The dictionary `get_echo_test_analysis` returns (in the non-empty
case); the three response-time statistics are `none` when the keys are
absent. -/
structure EchoAnalysis where
  total_tests : Nat
  successful_tests : Nat
  failed_tests : Nat
  success_rate : ℚ
  recent_tests : List EchoTestRecord
  avg_response_time : Option ℚ
  min_response_time : Option ℚ
  max_response_time : Option ℚ
deriving DecidableEq

/-- `get_echo_test_analysis`: `none` models the no-data message dict. -/
def get_echo_test_analysis (tests : List EchoTestRecord) : Option EchoAnalysis :=
  if tests.isEmpty then none
  else
    let successful := tests.filter (fun t => t.status == "completed")
    let failed := tests.filter (fun t => !(t.status == "completed"))
    let base : EchoAnalysis :=
      { total_tests := tests.length,
        successful_tests := successful.length,
        failed_tests := failed.length,
        success_rate := (successful.length : ℚ) / (tests.length : ℚ) * 100,
        recent_tests :=
          if 5 < tests.length then tests.drop (tests.length - 5) else tests,
        avg_response_time := none,
        min_response_time := none,
        max_response_time := none }
    if !successful.isEmpty && successful.any (fun t => truthy_rt t.response_time) then
      let response_times := successful.filterMap
        (fun t => if truthy_rt t.response_time then t.response_time else none)
      if response_times.isEmpty then some base
      else some { base with
        avg_response_time := rts_avg response_times,
        min_response_time := rts_min response_times,
        max_response_time := rts_max response_times }
    else some base

/-- The `avg_response_time` field of the analysis, when present. -/
def echo_avg_rt (tests : List EchoTestRecord) : Option ℚ :=
  (get_echo_test_analysis tests).bind (fun a => a.avg_response_time)

/-- The `min_response_time` field of the analysis, when present. -/
def echo_min_rt (tests : List EchoTestRecord) : Option ℚ :=
  (get_echo_test_analysis tests).bind (fun a => a.min_response_time)

/-- The `max_response_time` field of the analysis, when present. -/
def echo_max_rt (tests : List EchoTestRecord) : Option ℚ :=
  (get_echo_test_analysis tests).bind (fun a => a.max_response_time)

/-! ## Theorems -/

/-- C1: the SNTP client parses a 48-byte reply as twelve 32-bit big-endian
unsigned words, takes word index 10 as the transmit timestamp and subtracts
2208988800; whenever word 10 of a 48-byte reply equals
2208988800 + 1700000000, the computed Unix time is exactly 1700000000. -/
theorem sntp_word10_unix_time (buf : List Nat)
    (hlen : buf.length = 48) (hbytes : ∀ b ∈ buf, b < 256)
    (hword : ntp_word buf 10 = 2208988800 + 1700000000) :
    sntp_unix_time buf = some 1700000000 := by
  simp [sntp_unix_time, hlen, hword, TIME1970]

/-- Witness for C1 on a concrete 48-byte reply whose word 10 holds
2208988800 + 1700000000 (bytes 40–43 are 232, 254, 111, 128). -/
theorem sntp_word10_unix_time_witness :
    sntp_unix_time (List.replicate 40 0 ++ [232, 254, 111, 128, 0, 0, 0, 0]) =
      some 1700000000 :=
  sntp_word10_unix_time _ (by decide) (by decide) (by decide)

/-- C2: for every message of at most 2048 bytes, the echo server sends back
exactly the same bytes, and however the reply is chunked into the client's
nonempty `recv` results, the client reassembles exactly the original
message; moreover the client declares success exactly when the reassembled
bytes equal the original message. -/
theorem echo_round_trip :
    (∀ (message : List Nat) (chunks : List (List Nat)),
        message.length ≤ 2048 →
        (∀ c ∈ chunks, c ≠ []) →
        chunks.flatten = echo_server_reply message →
        echo_server_reply message = message ∧
          echo_client_reassemble chunks = message) ∧
    (∀ (message : List Nat) (chunks : List (List Nat)),
        echo_client_success message chunks = true ↔
          echo_client_reassemble chunks = message) := by
  constructor
  · intro message chunks hlen hne hflat
    have hreply : echo_server_reply message = message := by
      unfold echo_server_reply
      have htake : message.take DATA_PAYLOAD = message :=
        List.take_of_length_le (by simpa [DATA_PAYLOAD] using hlen)
      simp only [htake]
      cases message with
      | nil => simp
      | cons a l => simp
    refine ⟨hreply, ?_⟩
    have htw : chunks.takeWhile (fun c => !c.isEmpty) = chunks := by
      apply List.takeWhile_eq_self_iff.mpr
      intro c hc
      have := hne c hc
      cases c with
      | nil => exact absurd rfl this
      | cons a l => simp
    unfold echo_client_reassemble
    rw [htw, hflat, hreply]
  · intro message chunks
    unfold echo_client_success
    constructor
    · intro h
      exact ((beq_iff_eq).mp h).symm
    · intro h
      exact (beq_iff_eq).mpr h.symm

/-- Witness for C2: the "ping" scenario with the reply delivered in one
chunk. -/
theorem echo_round_trip_witness :
    echo_server_reply [112, 105, 110, 103] = [112, 105, 110, 103] ∧
      echo_client_reassemble [[112, 105, 110, 103]] = [112, 105, 110, 103] :=
  echo_round_trip.1 [112, 105, 110, 103] [[112, 105, 110, 103]]
    (by decide) (by decide) (by decide)

/-- C6: in the length-framed chat server, a received message is sent to
exactly the tracked sockets other than the listening socket and the sender:
with at least two tracked clients, every other tracked client is a
broadcast target, and neither the sender nor the listening socket ever
is. -/
theorem chat_broadcast_excludes_sender
    (inputs : List Nat) (server a : Nat)
    (ha : a ∈ inputs) (has : a ≠ server)
    (hN : 2 ≤ (inputs.filter (fun c => decide (c ≠ server))).length) :
    (∀ c ∈ inputs, c ≠ server → c ≠ a →
        c ∈ chat_broadcast_targets inputs server a) ∧
      a ∉ chat_broadcast_targets inputs server a ∧
      server ∉ chat_broadcast_targets inputs server a := by
  refine ⟨?_, ?_, ?_⟩
  · intro c hc hcs hca
    simp [chat_broadcast_targets, List.mem_filter, hc, hcs, hca]
  · simp [chat_broadcast_targets, List.mem_filter]
  · simp [chat_broadcast_targets, List.mem_filter]

/-- Witness for C6 with three tracked sockets: listener 0, sender 1,
remaining client 2. -/
theorem chat_broadcast_excludes_sender_witness :
    (2 ∈ chat_broadcast_targets [0, 1, 2] 0 1) ∧
      1 ∉ chat_broadcast_targets [0, 1, 2] 0 1 ∧
      0 ∉ chat_broadcast_targets [0, 1, 2] 0 1 := by
  have h := chat_broadcast_excludes_sender [0, 1, 2] 0 1
    (by decide) (by decide) (by decide)
  exact ⟨h.1 2 (by decide) (by decide) (by decide), h.2.1, h.2.2⟩

/-- On a pass in which no send fails, the raw-line broadcast reaches every
tracked socket except the sender and leaves the tracked list unchanged. -/
theorem raw_broadcast_no_failure (sender : Nat) (fails : Nat → Bool) :
    ∀ l : List Nat, (∀ z ∈ l, fails z = false) →
      raw_broadcast sender fails l = (l.filter (fun z => z != sender), l) := by
  intro l
  induction l with
  | nil => intro _; rfl
  | cons a rest ih =>
    intro h
    have hfa : fails a = false := h a (List.mem_cons_self a rest)
    have hrest := ih (fun z hz => h z (List.mem_cons_of_mem a hz))
    rw [raw_broadcast.eq_def]
    by_cases ha : a = sender
    · subst ha
      simp [hrest, List.filter_cons]
    · have hbe : (a == sender) = false := by simp [ha]
      simp [hbe, hfa, hrest, List.filter_cons, ha]

/-- C7 counterexample: with tracked clients 10, 20, 30, sender 10 and the
send to 20 failing, client 30 is still tracked after the broadcast pass but
was never sent the message — refuting the claim that the remaining targets
still receive it. -/
theorem raw_broadcast_skipped_target :
    30 ∈ (raw_broadcast 10 (fun z => z == 20) [10, 20, 30]).2 ∧
      30 ∉ (raw_broadcast 10 (fun z => z == 20) [10, 20, 30]).1 := by
  decide

/-- C7 amended: in a broadcast pass whose only failing send is to `x`
(not the sender), every non-sender target before `x` and after the socket
`y` immediately following `x` receives the message, `x` is closed and
removed from the tracked list within the same pass, but — because the
removal mutates the list while the `for` loop iterates over it — `y` is
skipped: it stays tracked and does not receive the message. -/
theorem raw_broadcast_failure_skips_next
    (sender x y : Nat) (fails : Nat → Bool) (l1 l2 : List Nat)
    (h1 : ∀ z ∈ l1, fails z = false) (h2 : ∀ z ∈ l2, fails z = false)
    (hx : fails x = true) (hxs : x ≠ sender) :
    raw_broadcast sender fails (l1 ++ x :: y :: l2) =
      ((l1 ++ l2).filter (fun z => z != sender), l1 ++ y :: l2) := by
  induction l1 with
  | nil =>
    have hbe : (x == sender) = false := by simp [hxs]
    rw [List.nil_append, raw_broadcast.eq_def]
    simp [hbe, hx, raw_broadcast_no_failure sender fails l2 h2]
  | cons a l1' ih =>
    have hfa : fails a = false := h1 a (List.mem_cons_self a l1')
    have hrest := ih (fun z hz => h1 z (List.mem_cons_of_mem a hz))
    rw [List.cons_append, raw_broadcast.eq_def]
    by_cases ha : a = sender
    · subst ha
      simp [hrest, List.filter_cons]
    · have hbe : (a == sender) = false := by simp [ha]
      simp [hbe, hfa, hrest, List.filter_cons, ha]

/-- Witness for the amended C7: clients 10, 20, 30, sender 10, send to 20
failing — nobody receives the message (30 is skipped) and the tracked list
afterwards is 10, 30. -/
theorem raw_broadcast_failure_skips_next_witness :
    raw_broadcast 10 (fun z => z == 20) [10, 20, 30] = ([], [10, 30]) := by
  have h := raw_broadcast_failure_skips_next 10 20 30 (fun z => z == 20)
    [10] [] (by decide) (by simp) (by decide) (by decide)
  simpa using h

/-- Every serialized value occupies at least one symbol. -/
theorem encVal_length_pos (v : PValue) : 1 ≤ (encVal v).length := by
  cases v <;> simp [encVal]

mutual
/-- The fuel a value needs is at most the length of its serialization. -/
theorem needVal_le_encVal : ∀ v : PValue, needVal v ≤ (encVal v).length
  | .pstr s => by simp [needVal, encVal]
  | .pint i => by simp [needVal, encVal]
  | .pdict d => by
    have h := needPairs_le_encPairs d
    simp only [needVal, encVal, List.length_cons]
    omega

/-- The fuel a dict's entries need is at most the length of their
serialization. -/
theorem needPairs_le_encPairs : ∀ d : PDict, needPairs d ≤ (encPairs d).length
  | .nil => by simp [needPairs, encPairs]
  | .cons k v d => by
    have hk := needVal_le_encVal k
    have hv := needVal_le_encVal v
    have hd := needPairs_le_encPairs d
    have pk := encVal_length_pos k
    have pv := encVal_length_pos v
    simp only [needPairs, encPairs, List.length_append]
    omega
end

/-- Rebuilding a string from its serialized code points is the
identity. -/
theorem strOfCodes_strCodes (s : String) : strOfCodes (strCodes s) = s := by
  have h : ∀ l : List Char, (l.map Char.toNat).map Char.ofNat = l := by
    intro l
    induction l with
    | nil => rfl
    | cons c cs ih => simp [ih]
  cases s with
  | mk data => simp [strOfCodes, strCodes, String.toList, h]

/-- Unfolding equation of the decoder: string case. -/
theorem decVal_eq_str (f n : Nat) (rest : List Nat) :
    decVal (f + 1) (0 :: n :: rest) =
      if (rest.take n).length = n then
        some (.pstr (strOfCodes (rest.take n)), rest.drop n)
      else none := rfl

/-- Unfolding equation of the decoder: nonnegative integer case. -/
theorem decVal_eq_int_nonneg (f m : Nat) (rest : List Nat) :
    decVal (f + 1) (1 :: 0 :: m :: rest) = some (.pint (m : Int), rest) := rfl

/-- Unfolding equation of the decoder: negative integer case. -/
theorem decVal_eq_int_neg (f m : Nat) (rest : List Nat) :
    decVal (f + 1) (1 :: 1 :: m :: rest) = some (.pint (-(m : Int)), rest) := rfl

/-- Unfolding equation of the decoder: dict case. -/
theorem decVal_eq_dict (f n : Nat) (rest : List Nat) :
    decVal (f + 1) (2 :: n :: rest) =
      match decPairs f n rest with
      | some (d, r) => some (.pdict d, r)
      | none => none := rfl

/-- Unfolding equation of the entries decoder: zero entries. -/
theorem decPairs_eq_zero (fuel : Nat) (input : List Nat) :
    decPairs fuel 0 input = some (.nil, input) := by
  cases fuel <;> rfl

/-- Unfolding equation of the entries decoder: successor case. -/
theorem decPairs_eq_succ (f n : Nat) (input : List Nat) :
    decPairs (f + 1) (n + 1) input =
      match decVal f input with
      | none => none
      | some (k, r1) =>
        match decVal f r1 with
        | none => none
        | some (v, r2) =>
          match decPairs f n r2 with
          | none => none
          | some (d, r3) => some (.cons k v d, r3) := rfl

mutual
/-- The modelled decoder inverts the modelled serializer on any value,
given enough fuel, leaving trailing bytes untouched. -/
theorem decVal_encVal : ∀ (v : PValue) (fuel : Nat) (rest : List Nat),
    needVal v ≤ fuel → decVal fuel (encVal v ++ rest) = some (v, rest)
  | .pstr s, fuel + 1, rest, _ => by
    have hlen : (strCodes s).length = s.length := by simp [strCodes]
    simp [encVal, List.cons_append, decVal_eq_str,
      List.take_left' hlen, List.drop_left' hlen, hlen, strOfCodes_strCodes]
  | .pint i, fuel + 1, rest, _ => by
    by_cases hi : i < 0
    · have henc : encVal (.pint i) = 1 :: 1 :: [i.natAbs] := by
        simp [encVal, hi]
      rw [henc]
      simp only [List.cons_append, List.singleton_append, decVal_eq_int_neg,
        Option.some.injEq, Prod.mk.injEq, PValue.pint.injEq]
      exact ⟨by omega, rfl⟩
    · have henc : encVal (.pint i) = 1 :: 0 :: [i.natAbs] := by
        simp [encVal, hi]
      rw [henc]
      simp only [List.cons_append, List.singleton_append, decVal_eq_int_nonneg,
        Option.some.injEq, Prod.mk.injEq, PValue.pint.injEq]
      exact ⟨by omega, rfl⟩
  | .pdict d, fuel + 1, rest, h => by
    have h' : needPairs d ≤ fuel := by
      simp only [needVal] at h
      omega
    simp [encVal, List.cons_append, decVal_eq_dict,
      decPairs_encPairs d fuel rest h']

/-- The modelled decoder reads back exactly the serialized entries of a
dict, given enough fuel. -/
theorem decPairs_encPairs : ∀ (d : PDict) (fuel : Nat) (rest : List Nat),
    needPairs d ≤ fuel → decPairs fuel d.len (encPairs d ++ rest) = some (d, rest)
  | .nil, fuel, rest, _ => by simp [PDict.len, encPairs, decPairs_eq_zero]
  | .cons k v d, fuel, rest, h => by
    have hfuel : ∃ f, fuel = f + 1 := by
      cases fuel with
      | zero =>
        exfalso
        simp only [needPairs] at h
        omega
      | succ f => exact ⟨f, rfl⟩
    obtain ⟨f, rfl⟩ := hfuel
    have hk : needVal k ≤ f := by
      simp only [needPairs] at h
      omega
    have hv : needVal v ≤ f := by
      simp only [needPairs] at h
      omega
    have hd : needPairs d ≤ f := by
      simp only [needPairs] at h
      omega
    have e1 := decVal_encVal k f (encVal v ++ (encPairs d ++ rest)) hk
    have e2 := decVal_encVal v f (encPairs d ++ rest) hv
    have e3 := decPairs_encPairs d f rest hd
    simp [PDict.len, encPairs, List.append_assoc, decPairs_eq_succ, e1, e2, e3]
end

/-- The modelled `pickle.loads` inverts `pickle.dumps`. -/
theorem pickle_round_trip (v : PValue) :
    pickle_loads (pickle_dumps v) = some [v] := by
  have h := decVal_encVal v ((encVal v).length + 1) []
    (Nat.le_trans (needVal_le_encVal v) (Nat.le_succ _))
  rw [List.append_nil] at h
  simp [pickle_dumps, pickle_loads, h]

/-- Unpacking the packed native unsigned long recovers the value. -/
theorem unpack_L_pack_L (w : Nat) (h : w < 2 ^ 64) :
    unpack_L (pack_L w) = some w := by
  simp only [pack_L, unpack_L, Option.some.injEq]
  omega

/-- The 32-bit byte swap is bounded by 2^32. -/
theorem htonl_lt (x : Nat) : htonl x < 2 ^ 32 := by
  unfold htonl
  omega

/-- Action of the 32-bit byte swap on a value given by its four bytes. -/
theorem htonl_bytes (b0 b1 b2 b3 : Nat) (h0 : b0 < 256) (h1 : b1 < 256)
    (h2 : b2 < 256) (h3 : b3 < 256) :
    htonl (b0 + b1 * 2 ^ 8 + b2 * 2 ^ 16 + b3 * 2 ^ 24) =
      b3 + b2 * 2 ^ 8 + b1 * 2 ^ 16 + b0 * 2 ^ 24 := by
  unfold htonl
  omega

/-- The 32-bit byte swap is an involution on 32-bit values, so
`socket.ntohl (socket.htonl n) = n`. -/
theorem htonl_htonl (x : Nat) (h : x < 2 ^ 32) : htonl (htonl x) = x := by
  obtain ⟨b0, b1, b2, b3, h0, h1, h2, h3, hx⟩ :
      ∃ b0 b1 b2 b3, b0 < 256 ∧ b1 < 256 ∧ b2 < 256 ∧ b3 < 256 ∧
        x = b0 + b1 * 2 ^ 8 + b2 * 2 ^ 16 + b3 * 2 ^ 24 :=
    ⟨x % 256, x / 2 ^ 8 % 256, x / 2 ^ 16 % 256, x / 2 ^ 24,
      by omega, by omega, by omega, by omega, by omega⟩
  subst hx
  rw [htonl_bytes b0 b1 b2 b3 h0 h1 h2 h3,
    htonl_bytes b3 b2 b1 b0 h3 h2 h1 h0]

/-- When called on a byte list that is not exactly eight bytes long,
`struct.unpack("L", ...)` raises `struct.error`. -/
theorem unpack_L_eq_none : ∀ bs : List Nat, bs.length ≠ 8 → unpack_L bs = none
  | [], _ => rfl
  | [_], _ => rfl
  | [_, _], _ => rfl
  | [_, _, _], _ => rfl
  | [_, _, _, _], _ => rfl
  | [_, _, _, _, _], _ => rfl
  | [_, _, _, _, _, _], _ => rfl
  | [_, _, _, _, _, _, _], _ => rfl
  | [_, _, _, _, _, _, _, _], h => absurd rfl h
  | _ :: _ :: _ :: _ :: _ :: _ :: _ :: _ :: _ :: _, _ => rfl

/-- C3: encoding any payload with the length-framed `send` and decoding the
resulting frame with `receive` returns the original payload — the
round-trip law, for the whole payload universe (strings, integers and
nested mappings). -/
theorem framed_round_trip (v : PValue)
    (h : (pickle_dumps v).length < 2 ^ 32) :
    receive (send_frame v) = RecvOutcome.value v := by
  have hne : (pickle_dumps v).isEmpty = false := rfl
  unfold receive send_frame
  have hpack : (pack_L (htonl (pickle_dumps v).length)).length =
      struct_calcsize_L := rfl
  rw [List.take_left' hpack, List.drop_left' hpack,
    unpack_L_pack_L _ (Nat.lt_trans (htonl_lt _) (by norm_num))]
  simp [htonl_htonl _ h, hne, pickle_round_trip v]

/-- Witness for C3 on a nested-mapping payload. -/
theorem framed_round_trip_witness :
    receive (send_frame (PValue.pdict (PDict.cons (PValue.pstr "a")
      (PValue.pint 1) PDict.nil))) =
      RecvOutcome.value (PValue.pdict (PDict.cons (PValue.pstr "a")
        (PValue.pint 1) PDict.nil)) :=
  framed_round_trip _ (by decide)

/-- C4 counterexample: for the concrete integer payload 0, the frame
produced by `send` is not a 4-byte length header followed by the payload:
its length exceeds 4 plus the payload length, because the `struct` "L"
header occupies eight bytes on the reference platform. -/
theorem send_frame_not_four_byte_header :
    (send_frame (PValue.pint 0)).length ≠
      4 + (pickle_dumps (PValue.pint 0)).length := by
  decide

/-- Packing a 32-bit value given by its four bytes. -/
theorem pack_L_bytes (b0 b1 b2 b3 : Nat) (h0 : b0 < 256) (h1 : b1 < 256)
    (h2 : b2 < 256) (h3 : b3 < 256) :
    pack_L (b0 + b1 * 2 ^ 8 + b2 * 2 ^ 16 + b3 * 2 ^ 24) =
      [b0, b1, b2, b3, 0, 0, 0, 0] := by
  simp only [pack_L, List.cons.injEq, and_true]
  refine ⟨?_, ?_, ?_, ?_, ?_, ?_, ?_, ?_⟩ <;> omega

/-- The packed `htonl` of a 32-bit value is the value's four big-endian
bytes followed by four zero bytes. -/
theorem pack_L_htonl (n : Nat) (h : n < 2 ^ 32) :
    pack_L (htonl n) =
      [n / 2 ^ 24 % 256, n / 2 ^ 16 % 256, n / 2 ^ 8 % 256, n % 256,
        0, 0, 0, 0] := by
  obtain ⟨b0, b1, b2, b3, h0, h1, h2, h3, hn⟩ :
      ∃ b0 b1 b2 b3, b0 < 256 ∧ b1 < 256 ∧ b2 < 256 ∧ b3 < 256 ∧
        n = b0 + b1 * 2 ^ 8 + b2 * 2 ^ 16 + b3 * 2 ^ 24 :=
    ⟨n % 256, n / 2 ^ 8 % 256, n / 2 ^ 16 % 256, n / 2 ^ 24,
      by omega, by omega, by omega, by omega, by omega⟩
  subst hn
  rw [htonl_bytes b0 b1 b2 b3 h0 h1 h2 h3,
    pack_L_bytes b3 b2 b1 b0 h3 h2 h1 h0]
  simp only [List.cons.injEq, and_self, and_true]
  refine ⟨?_, ?_, ?_, ?_⟩ <;> omega

/-- C4 amended: every frame produced by `send` consists of an 8-byte
native unsigned-long header holding `htonl` of the payload length —
its first four bytes are the big-endian payload length and its last four
bytes are zero — followed by exactly the payload bytes. -/
theorem send_frame_layout (v : PValue)
    (h : (pickle_dumps v).length < 2 ^ 32) :
    (send_frame v).length =
        struct_calcsize_L + (pickle_dumps v).length ∧
      (send_frame v).take 4 =
        [(pickle_dumps v).length / 2 ^ 24 % 256,
          (pickle_dumps v).length / 2 ^ 16 % 256,
          (pickle_dumps v).length / 2 ^ 8 % 256,
          (pickle_dumps v).length % 256] ∧
      ((send_frame v).drop 4).take 4 = [0, 0, 0, 0] ∧
      (send_frame v).drop struct_calcsize_L = pickle_dumps v := by
  have hfr : send_frame v =
      (pickle_dumps v).length / 2 ^ 24 % 256 ::
        (pickle_dumps v).length / 2 ^ 16 % 256 ::
        (pickle_dumps v).length / 2 ^ 8 % 256 ::
        (pickle_dumps v).length % 256 ::
        0 :: 0 :: 0 :: 0 :: pickle_dumps v := by
    rw [send_frame, pack_L_htonl _ h]
    rfl
  rw [hfr]
  refine ⟨?_, rfl, rfl, rfl⟩
  simp only [List.length_cons, struct_calcsize_L]
  omega

/-- Witness for the amended C4 on the integer payload 0. -/
theorem send_frame_layout_witness :
    (send_frame (PValue.pint 0)).length =
        struct_calcsize_L + (pickle_dumps (PValue.pint 0)).length ∧
      (send_frame (PValue.pint 0)).take 4 =
        [(pickle_dumps (PValue.pint 0)).length / 2 ^ 24 % 256,
          (pickle_dumps (PValue.pint 0)).length / 2 ^ 16 % 256,
          (pickle_dumps (PValue.pint 0)).length / 2 ^ 8 % 256,
          (pickle_dumps (PValue.pint 0)).length % 256] ∧
      ((send_frame (PValue.pint 0)).drop 4).take 4 = [0, 0, 0, 0] ∧
      (send_frame (PValue.pint 0)).drop struct_calcsize_L =
        pickle_dumps (PValue.pint 0) :=
  send_frame_layout (PValue.pint 0) (by decide)

/-- C5: whenever the received size data is too short to unpack, `receive`
returns the empty-string sentinel rather than raising or a distinct error;
and a valid size header followed by no payload bytes produces the very same
sentinel, so the two conditions are indistinguishable at the `receive`
interface. -/
theorem receive_sentinel_ambiguity :
    (∀ input : List Nat, input.length < struct_calcsize_L →
        receive input = RecvOutcome.sentinel) ∧
      (∀ n : Nat, receive (pack_L (htonl n)) = RecvOutcome.sentinel) := by
  constructor
  · intro input hlen
    have hne : (input.take struct_calcsize_L).length ≠ 8 := by
      simp only [List.length_take, struct_calcsize_L] at hlen ⊢
      omega
    unfold receive
    rw [unpack_L_eq_none _ hne]
  · intro n
    have htake : (pack_L (htonl n)).take struct_calcsize_L =
        pack_L (htonl n) :=
      List.take_of_length_le (by simp [pack_L, struct_calcsize_L])
    have hdrop : (pack_L (htonl n)).drop struct_calcsize_L = [] :=
      List.drop_eq_nil_of_le (by simp [pack_L, struct_calcsize_L])
    unfold receive
    rw [htake, hdrop, unpack_L_pack_L _ (Nat.lt_trans (htonl_lt _)
      (by norm_num))]
    simp

/-- Witness for C5: a 3-byte fragment yields the sentinel, exactly like a
complete size header announcing 5 payload bytes that never arrive. -/
theorem receive_sentinel_ambiguity_witness :
    receive [1, 2, 3] = RecvOutcome.sentinel ∧
      receive (pack_L (htonl 5)) = RecvOutcome.sentinel :=
  ⟨receive_sentinel_ambiguity.1 [1, 2, 3] (by decide),
    receive_sentinel_ambiguity.2 5⟩

/-- C8: pruning the integration log with a cutoff of 0 days leaves no
entry whose timestamp is strictly earlier than the pruning instant in any
of the six record arrays; pruning with a cutoff of more days than the age
of the oldest entry (every entry strictly younger than the cutoff in
seconds) removes nothing — the five record arrays are untouched and the
event log only gains the cleanup entry. -/
theorem clear_old_data_cutoff :
    (∀ (now : Int) (s : IntegratorState),
        (∀ x ∈ (clear_old_data now 0 s).mem.echo_tests, ¬ x.timestamp < now) ∧
        (∀ x ∈ (clear_old_data now 0 s).mem.sntp_checks, ¬ x.timestamp < now) ∧
        (∀ x ∈ (clear_old_data now 0 s).mem.machine_info, ¬ x.timestamp < now) ∧
        (∀ x ∈ (clear_old_data now 0 s).mem.socket_errors, ¬ x.timestamp < now) ∧
        (∀ x ∈ (clear_old_data now 0 s).mem.chat_sessions, ¬ x.timestamp < now) ∧
        (∀ x ∈ (clear_old_data now 0 s).mem.integration_log, ¬ x.timestamp < now)) ∧
      (∀ (now days : Int) (s : IntegratorState),
        (∀ x ∈ s.mem.echo_tests, now - x.timestamp < days * (24 * 60 * 60)) →
        (∀ x ∈ s.mem.sntp_checks, now - x.timestamp < days * (24 * 60 * 60)) →
        (∀ x ∈ s.mem.machine_info, now - x.timestamp < days * (24 * 60 * 60)) →
        (∀ x ∈ s.mem.socket_errors, now - x.timestamp < days * (24 * 60 * 60)) →
        (∀ x ∈ s.mem.chat_sessions, now - x.timestamp < days * (24 * 60 * 60)) →
        (∀ x ∈ s.mem.integration_log, now - x.timestamp < days * (24 * 60 * 60)) →
        (clear_old_data now days s).mem.echo_tests = s.mem.echo_tests ∧
          (clear_old_data now days s).mem.sntp_checks = s.mem.sntp_checks ∧
          (clear_old_data now days s).mem.machine_info = s.mem.machine_info ∧
          (clear_old_data now days s).mem.socket_errors = s.mem.socket_errors ∧
          (clear_old_data now days s).mem.chat_sessions = s.mem.chat_sessions ∧
          (clear_old_data now days s).mem.integration_log =
            s.mem.integration_log ++ [cleanup_log_entry now days]) := by
  constructor
  · intro now s
    refine ⟨?_, ?_, ?_, ?_, ?_, ?_⟩ <;>
      intro x hx <;>
      simp only [clear_old_data, log_integration, filter_old, List.mem_append,
        List.mem_filter, List.mem_singleton, decide_eq_true_eq] at hx
    · omega
    · omega
    · omega
    · omega
    · omega
    · rcases hx with ⟨_, hlt⟩ | hcl
      · omega
      · subst hcl
        simp
  · intro now days s h1 h2 h3 h4 h5 h6
    refine ⟨?_, ?_, ?_, ?_, ?_, ?_⟩ <;>
      simp only [clear_old_data, log_integration, filter_old,
        cleanup_log_entry, List.append_cancel_right_eq]
    · exact List.filter_eq_self.mpr fun x hx => by
        rw [decide_eq_true_eq]
        have := h1 x hx
        omega
    · exact List.filter_eq_self.mpr fun x hx => by
        rw [decide_eq_true_eq]
        have := h2 x hx
        omega
    · exact List.filter_eq_self.mpr fun x hx => by
        rw [decide_eq_true_eq]
        have := h3 x hx
        omega
    · exact List.filter_eq_self.mpr fun x hx => by
        rw [decide_eq_true_eq]
        have := h4 x hx
        omega
    · exact List.filter_eq_self.mpr fun x hx => by
        rw [decide_eq_true_eq]
        have := h5 x hx
        omega
    · exact List.filter_eq_self.mpr fun x hx => by
        rw [decide_eq_true_eq]
        have := h6 x hx
        omega

/-- Witness for C8 at a concrete state: one echo record and one event-log
entry, pruned at cutoff 0 and at cutoff 1 day. -/
theorem clear_old_data_cutoff_witness :
    (∀ x ∈ (clear_old_data 100 0
          ⟨⟨[⟨50, 1, "completed", none, none⟩], [], [], [], [],
            [⟨60, "echo_test", "m"⟩]⟩, emptyIntegratorData⟩).mem.echo_tests,
        ¬ x.timestamp < 100) ∧
      (clear_old_data 100 1
          ⟨⟨[⟨50, 1, "completed", none, none⟩], [], [], [], [],
            [⟨60, "echo_test", "m"⟩]⟩, emptyIntegratorData⟩).mem.echo_tests =
        [⟨50, 1, "completed", none, none⟩] := by
  constructor
  · exact (clear_old_data_cutoff.1 100
      ⟨⟨[⟨50, 1, "completed", none, none⟩], [], [], [], [],
        [⟨60, "echo_test", "m"⟩]⟩, emptyIntegratorData⟩).1
  · exact (clear_old_data_cutoff.2 100 1
      ⟨⟨[⟨50, 1, "completed", none, none⟩], [], [], [], [],
        [⟨60, "echo_test", "m"⟩]⟩, emptyIntegratorData⟩
      (by intro x hx; simp at hx; subst hx; decide)
      (by simp) (by simp) (by simp) (by simp)
      (by intro x hx; simp at hx; subst hx; decide)).1

/-- C9 counterexample: running `clear_old_data` on the empty state leaves
the in-memory data different from the persisted data — the
`data_cleanup` integration-log entry appended by the pruning operation is
missing from the document written before the operation returned. -/
theorem clear_old_data_unpersisted_entry :
    (clear_old_data 0 0 ⟨emptyIntegratorData, emptyIntegratorData⟩).mem ≠
      (clear_old_data 0 0 ⟨emptyIntegratorData, emptyIntegratorData⟩).disk := by
  decide

/-- C9 amended: each record-append operation persists the complete
in-memory data — the new record and the integration-log entry it logged
included — before returning; the pruning operation persists the pruned
six arrays before returning, but the `data_cleanup` log entry it appends
is added only after the save, so the in-memory log exceeds the persisted
log by exactly that entry until a later mutation saves again. -/
theorem mutation_persistence :
    (∀ (now port : Int) (status : String) (rt : Option ℚ)
        (em : Option String) (s : IntegratorState),
        (add_echo_test_result now port status rt em s).disk =
            (add_echo_test_result now port status rt em s).mem ∧
          (add_echo_test_result now port status rt em s).disk.echo_tests =
            s.mem.echo_tests ++ [⟨now, port, status, rt, em⟩] ∧
          (add_echo_test_result now port status rt em s).disk.integration_log =
            s.mem.integration_log ++
              [⟨now, "echo_test",
                "Echo test on port " ++ toString port ++ ": " ++ status⟩]) ∧
      (∀ (now : Int) (st lt : String) (td : ℚ) (server : String)
        (s : IntegratorState),
        (add_sntp_check now st lt td server s).disk =
          (add_sntp_check now st lt td server s).mem) ∧
      (∀ (now : Int) (hn ip : String) (ni : List (String × String))
        (s : IntegratorState),
        (add_machine_info now hn ip ni s).disk =
          (add_machine_info now hn ip ni s).mem) ∧
      (∀ (now : Int) (et em module : String) (port : Option Int)
        (s : IntegratorState),
        (add_socket_error now et em module port s).disk =
          (add_socket_error now et em module port s).mem) ∧
      (∀ (now : Int) (st : String) (port : Int) (du : Option ℚ)
        (mc : Option Int) (s : IntegratorState),
        (add_chat_session now st port du mc s).disk =
          (add_chat_session now st port du mc s).mem) ∧
      (∀ (now days : Int) (s : IntegratorState),
        (clear_old_data now days s).disk = filter_old now days s.mem ∧
          (clear_old_data now days s).mem.integration_log =
            (clear_old_data now days s).disk.integration_log ++
              [cleanup_log_entry now days]) :=
  ⟨fun _ _ _ _ _ _ => ⟨rfl, rfl, rfl⟩,
    fun _ _ _ _ _ _ => rfl,
    fun _ _ _ _ _ => rfl,
    fun _ _ _ _ _ _ => rfl,
    fun _ _ _ _ _ _ => rfl,
    fun _ _ _ => ⟨rfl, rfl⟩⟩

/-- The selector applied to each successful test yields nothing exactly
when the recorded response time is not truthy. -/
theorem rt_sel_eq_none (t : EchoTestRecord) :
    (if truthy_rt t.response_time then t.response_time else none) = none ↔
      truthy_rt t.response_time = false := by
  cases hrt : t.response_time with
  | none => simp [truthy_rt]
  | some q =>
    by_cases hq : q = 0
    · simp [truthy_rt, hq]
    · simp [truthy_rt, hq]

/-- When no completed test has a truthy response time, the aggregated
list is empty. -/
theorem rts_nil_of_no_truthy (tests : List EchoTestRecord)
    (h : ∀ t ∈ tests, t.status = "completed" →
      truthy_rt t.response_time = false) :
    analysis_response_times tests = [] := by
  unfold analysis_response_times
  rw [List.filterMap_eq_nil_iff]
  intro t ht
  obtain ⟨htm, hts⟩ := List.mem_filter.mp ht
  rw [rt_sel_eq_none]
  exact h t htm (by simpa using hts)

/-- The three response-time statistics of the analysis are exactly the
Python `sum/len`, `min` and `max` of the truthy response times of the
successful tests. -/
theorem echo_rt_stats_eq (tests : List EchoTestRecord) :
    echo_avg_rt tests = rts_avg (analysis_response_times tests) ∧
      echo_min_rt tests = rts_min (analysis_response_times tests) ∧
      echo_max_rt tests = rts_max (analysis_response_times tests) := by
  unfold echo_avg_rt echo_min_rt echo_max_rt get_echo_test_analysis
  by_cases h1 : tests.isEmpty = true
  · rw [List.isEmpty_iff] at h1
    subst h1
    simp [analysis_response_times, rts_avg, rts_min, rts_max]
  · simp only [if_neg h1]
    by_cases h3 : (!(tests.filter (fun t => t.status == "completed")).isEmpty &&
        (tests.filter (fun t => t.status == "completed")).any
          (fun t => truthy_rt t.response_time)) = true
    · simp only [if_pos h3]
      by_cases h4 : ((tests.filter (fun t => t.status == "completed")).filterMap
          (fun t => if truthy_rt t.response_time then t.response_time
            else none)).isEmpty = true
      · simp only [if_pos h4]
        rw [List.isEmpty_iff] at h4
        have h4' : analysis_response_times tests = [] := h4
        rw [h4']
        simp [rts_avg, rts_min, rts_max]
      · simp only [if_neg h4]
        simp [analysis_response_times]
    · simp only [if_neg h3]
      have hB : ∀ t ∈ tests, t.status = "completed" →
          truthy_rt t.response_time = false := by
        intro t ht hc
        by_contra hf
        rw [Bool.not_eq_false] at hf
        apply h3
        rw [Bool.and_eq_true]
        have htm : t ∈ tests.filter (fun u => u.status == "completed") :=
          List.mem_filter.mpr ⟨ht, by simpa using hc⟩
        constructor
        · rw [Bool.not_eq_true', List.isEmpty_eq_false]
          exact List.ne_nil_of_mem htm
        · rw [List.any_eq_true]
          exact ⟨t, htm, hf⟩
      have hnil : analysis_response_times tests = [] :=
        rts_nil_of_no_truthy tests hB
      rw [hnil]
      simp [rts_avg, rts_min, rts_max]

/-- The truthy response times of the successful tests are nonempty exactly
when some completed test has a truthy recorded response time. -/
theorem analysis_rts_ne_nil_iff (tests : List EchoTestRecord) :
    analysis_response_times tests ≠ [] ↔
      ∃ t ∈ tests, t.status = "completed" ∧
        truthy_rt t.response_time = true := by
  unfold analysis_response_times
  rw [Ne, List.filterMap_eq_nil_iff]
  push_neg
  constructor
  · rintro ⟨t, ht, hne⟩
    have hmem := List.mem_filter.mp ht
    refine ⟨t, hmem.1, by simpa using hmem.2, ?_⟩
    by_contra hf
    exact hne ((rt_sel_eq_none t).mpr (Bool.not_eq_true _ ▸ hf))
  · rintro ⟨t, ht, hst, htr⟩
    refine ⟨t, List.mem_filter.mpr ⟨ht, by simpa using hst⟩, ?_⟩
    intro hnone
    rw [rt_sel_eq_none t, htr] at hnone
    cases hnone

/-- C10: the three response-time statistics of the echo-test analysis are
present exactly when some completed test carries a truthy (non-`None`,
nonzero) response time, and a completed test recorded with response time
`None` or `0.0` is excluded — appending such a test changes none of the
three statistics. -/
theorem echo_analysis_truthy_only :
    (∀ tests : List EchoTestRecord,
        ((echo_avg_rt tests).isSome ↔
          ∃ t ∈ tests, t.status = "completed" ∧
            truthy_rt t.response_time = true) ∧
        ((echo_min_rt tests).isSome ↔
          ∃ t ∈ tests, t.status = "completed" ∧
            truthy_rt t.response_time = true) ∧
        ((echo_max_rt tests).isSome ↔
          ∃ t ∈ tests, t.status = "completed" ∧
            truthy_rt t.response_time = true)) ∧
      (∀ (tests : List EchoTestRecord) (t : EchoTestRecord),
        t.status = "completed" →
        t.response_time = none ∨ t.response_time = some 0 →
        echo_avg_rt (tests ++ [t]) = echo_avg_rt tests ∧
          echo_min_rt (tests ++ [t]) = echo_min_rt tests ∧
          echo_max_rt (tests ++ [t]) = echo_max_rt tests) := by
  have hsome : ∀ l : List ℚ, (rts_avg l).isSome ↔ l ≠ [] := by
    intro l
    cases l <;> simp [rts_avg]
  have hsomem : ∀ l : List ℚ, (rts_min l).isSome ↔ l ≠ [] := by
    intro l
    cases l <;> simp [rts_min]
  have hsomex : ∀ l : List ℚ, (rts_max l).isSome ↔ l ≠ [] := by
    intro l
    cases l <;> simp [rts_max]
  constructor
  · intro tests
    obtain ⟨ha, hm, hx⟩ := echo_rt_stats_eq tests
    rw [ha, hm, hx, hsome, hsomem, hsomex]
    exact ⟨analysis_rts_ne_nil_iff tests, analysis_rts_ne_nil_iff tests,
      analysis_rts_ne_nil_iff tests⟩
  · intro tests t hst hrt
    have htr : truthy_rt t.response_time = false := by
      rcases hrt with h | h <;> simp [truthy_rt, h]
    have hrts : analysis_response_times (tests ++ [t]) =
        analysis_response_times tests := by
      unfold analysis_response_times
      rw [List.filter_append, List.filterMap_append]
      have : (([t].filter (fun u => u.status == "completed")).filterMap
          (fun u => if truthy_rt u.response_time then u.response_time
            else none)) = [] := by
        simp [List.filter, hst, htr]
      rw [this, List.append_nil]
    obtain ⟨ha1, hm1, hx1⟩ := echo_rt_stats_eq (tests ++ [t])
    obtain ⟨ha2, hm2, hx2⟩ := echo_rt_stats_eq tests
    rw [ha1, hm1, hx1, ha2, hm2, hx2, hrts]
    exact ⟨rfl, rfl, rfl⟩

/-- Witness for C10: appending a completed test with response time 0 to
the empty history leaves all three statistics absent. -/
theorem echo_analysis_truthy_only_witness :
    echo_avg_rt ([] ++ [⟨0, 1, "completed", some 0, none⟩]) =
        echo_avg_rt [] ∧
      echo_min_rt ([] ++ [⟨0, 1, "completed", some 0, none⟩]) =
        echo_min_rt [] ∧
      echo_max_rt ([] ++ [⟨0, 1, "completed", some 0, none⟩]) =
        echo_max_rt [] :=
  echo_analysis_truthy_only.2 [] ⟨0, 1, "completed", some 0, none⟩
    rfl (Or.inr rfl)
